import Mathlib

/-!
Verification of the employee backend (FastAPI + MongoDB CRUD/reporting service).

The embedding below models, from `src/main.py`, `src/models.py` and
`src/database.py`:

* the persisted MongoDB document (`Doc`) — schema-free, so every field may be
  absent/null, which we model with `Option`;
* the collection state (`DB`) with the driver operations the handlers use
  (`find_one`, `insert_one`, `update_one` with a top-level set, `delete_one`,
  `find` with sort, and the average-salary aggregation pipeline);
* the Pydantic models (`EmployeeCreate`, `EmployeeUpdate`, `Employee`,
  `AverageSalaryByDepartment`) including the distinction between a field
  omitted from an update payload and a field explicitly sent as null
  (`exclude_unset` semantics), and the validation that builds an `Employee`
  response from a raw document;
* the seven request handlers of `src/main.py`;
* the FastAPI/Starlette GET route table in registration order, since route
  resolution is first-match in the order the decorators appear in
  `src/main.py`.
-/

namespace EmployeeBackend

/-- A BSON datetime: a calendar day (as a day number) together with a
time-of-day component in milliseconds.  `datetime.combine(d, time.min)`
(used by the handlers to normalize `joining_date`) zeroes the time
component. -/
structure DateTime where
  day : Int
  msecs : Nat
deriving DecidableEq, Repr

/-- Model of `datetime.combine(value, datetime.min.time())` from `create_employee` /
`update_employee`: keep the calendar day, zero the time-of-day. -/
def DateTime.normalizeToMidnight (d : DateTime) : DateTime :=
  { d with msecs := 0 }

/-- BSON comparison of two datetimes (day-lexicographic). -/
def DateTime.le (a b : DateTime) : Prop :=
  a.day < b.day ∨ (a.day = b.day ∧ a.msecs ≤ b.msecs)

instance : DecidableRel DateTime.le := fun a b => by
  unfold DateTime.le; infer_instance

/-- A persisted document of the `employees` collection.  MongoDB is
schema-free: nothing prevents a field from being absent or null (we conflate
the two, as the `$group`/query operators of the pipeline do), so every field
other than the generated `_id` is optional. -/
structure Doc where
  oid : Nat
  employee_id : Option String
  name : Option String
  department : Option String
  salary : Option Rat
  joining_date : Option DateTime
  skills : Option (List String)
deriving DecidableEq, Repr

/-- All seven fields of the document are present and non-null. -/
def Doc.full (d : Doc) : Prop :=
  d.employee_id.isSome ∧ d.name.isSome ∧ d.department.isSome ∧
    d.salary.isSome ∧ d.joining_date.isSome ∧ d.skills.isSome

instance (d : Doc) : Decidable d.full := by
  unfold Doc.full; infer_instance

/-- The state of the `employees` collection: documents in natural
(insertion) order, plus the next ObjectId the database will generate. -/
structure DB where
  docs : List Doc
  nextOid : Nat
deriving DecidableEq, Repr

/-- Mongo `collection.find_one({"employee_id": eid})`: first document, in natural
order, whose `employee_id` field equals `eid` (a document with a missing or
null `employee_id` does not match a string query value). -/
def find_one (st : DB) (eid : String) : Option Doc :=
  st.docs.find? (fun d => d.employee_id == some eid)

/-- Mongo `collection.insert_one(doc)`: append the document with a fresh generated
`_id` and return the new state together with that `inserted_id`. -/
def insert_one (st : DB) (mk : Nat → Doc) : DB × Nat :=
  (⟨st.docs ++ [mk st.nextOid], st.nextOid + 1⟩, st.nextOid)

/-- Mongo `collection.find_one({"_id": oid})`. -/
def find_one_by_oid (st : DB) (oid : Nat) : Option Doc :=
  st.docs.find? (fun d => d.oid == oid)

/-- Replace the first element satisfying `p` by its image under `f`
(Mongo's `update_one` touches at most one document). -/
def mapFirst (p : Doc → Bool) (f : Doc → Doc) : List Doc → List Doc
  | [] => []
  | d :: ds => if p d then f d :: ds else d :: mapFirst p f ds

/-- Remove the first element satisfying `p`, returning the deleted count
(Mongo's `delete_one`). -/
def removeFirst (p : Doc → Bool) : List Doc → List Doc × Nat
  | [] => ([], 0)
  | d :: ds =>
    if p d then (ds, 1)
    else
      let r := removeFirst p ds
      (d :: r.1, r.2)

/-- Mongo `collection.delete_one({"employee_id": eid})`, returning the new state
and `deleted_count`. -/
def delete_one (st : DB) (eid : String) : DB × Nat :=
  let r := removeFirst (fun d => d.employee_id == some eid) st.docs
  (⟨r.1, st.nextOid⟩, r.2)

/-! ### Pydantic models (`src/models.py`) -/

/-- Model `EmployeeCreate` (models.py): all employee fields except `id`, all
required; the declared constraints are presence and type only. -/
structure EmployeeCreate where
  employee_id : String
  name : String
  department : String
  salary : Rat
  joining_date : DateTime
  skills : List String
deriving DecidableEq, Repr

/-- A raw creation payload before Pydantic validation: each field is either
present (with a value of the right type) or absent. -/
structure RawCreate where
  employee_id : Option String
  name : Option String
  department : Option String
  salary : Option Rat
  joining_date : Option DateTime
  skills : Option (List String)
deriving DecidableEq, Repr

/-- Pydantic validation of `EmployeeCreate` (models.py lines 58–64): every
field is required (`Field(...)`) with the declared type; no further
constraint (in particular no minimum length) is declared, so any present,
well-typed value — including an empty string — passes. -/
def validateCreate (r : RawCreate) : Option EmployeeCreate :=
  match r.employee_id, r.name, r.department, r.salary, r.joining_date, r.skills with
  | some e, some n, some dep, some s, some j, some sk =>
    some ⟨e, n, dep, s, j, sk⟩
  | _, _, _, _, _, _ => none

/-- Model `EmployeeUpdate` (models.py lines 68–73): every field optional.  The
outer `Option` records whether the field was present in the request payload
(Pydantic `exclude_unset`); the inner `Option` is the value, which may be an
explicit null. -/
structure EmployeeUpdate where
  name : Option (Option String)
  department : Option (Option String)
  salary : Option (Option Rat)
  joining_date : Option (Option DateTime)
  skills : Option (Option (List String))
deriving DecidableEq, Repr

/-- Holds when `model_dump(exclude_unset=True)` produced an empty dict: no field was
present in the payload. -/
def EmployeeUpdate.unset (u : EmployeeUpdate) : Bool :=
  u.name.isNone && u.department.isNone && u.salary.isNone &&
    u.joining_date.isNone && u.skills.isNone

/-- The `Employee` response model (models.py lines 44–55): `id` rendered as a
string, all other fields required and non-null. -/
structure Employee where
  id : String
  employee_id : String
  name : String
  department : String
  salary : Rat
  joining_date : DateTime
  skills : List String
deriving DecidableEq, Repr

/-- Validation `Employee(**doc)` after the handler replaced `doc["_id"]` by its string
form: Pydantic validation succeeds iff every field is present and non-null;
otherwise a `ValidationError` escapes the handler (a server error). -/
def Employee.ofDoc (d : Doc) : Option Employee :=
  match d.employee_id, d.name, d.department, d.salary, d.joining_date, d.skills with
  | some e, some n, some dep, some s, some j, some sk =>
    some ⟨toString d.oid, e, n, dep, s, j, sk⟩
  | _, _, _, _, _, _ => none

/-- Model `AverageSalaryByDepartment` (models.py): both fields required. -/
structure AverageSalaryByDepartment where
  department : String
  avg_salary : Rat
deriving DecidableEq, Repr

/-! ### Responses -/

/-- The observable outcome of one request: a body with its status code, an
`HTTPException` raised by the handler, or an uncaught exception surfacing as
a generic server error. -/
inductive Response where
  | employee (status : Nat) (e : Employee)
  | employees (es : List Employee)
  | avgRows (rows : List AverageSalaryByDepartment)
  | noContent
  | clientError (status : Nat) (detail : String)
  | serverError
deriving DecidableEq, Repr

/-! ### Request handlers (`src/main.py`) -/

/-- Handler of `POST /employees/` — `create_employee` (main.py lines 26–53): look up the
`employee_id`; on a hit raise a 400 `HTTPException` without inserting;
otherwise normalize `joining_date` to midnight, insert, re-read the inserted
document by its generated `_id` and return it as a 201 `Employee`. -/
def create_employee (st : DB) (employee : EmployeeCreate) : DB × Response :=
  match find_one st employee.employee_id with
  | some _ => (st, .clientError 400 "Employee with this employee_id already exists.")
  | none =>
    let mk : Nat → Doc := fun oid =>
      ⟨oid, some employee.employee_id, some employee.name, some employee.department,
        some employee.salary, some employee.joining_date.normalizeToMidnight,
        some employee.skills⟩
    let r := insert_one st mk
    match find_one_by_oid r.1 r.2 with
    | some d =>
      match Employee.ofDoc d with
      | some e => (r.1, .employee 201 e)
      | none => (r.1, .serverError)
    | none => (r.1, .serverError)

/-- Handler of `GET /employees/{employee_id}` — `get_employee_by_id` (main.py lines
55–66): exact lookup, 404 when absent. -/
def get_employee_by_id (st : DB) (employee_id : String) : Response :=
  match find_one st employee_id with
  | some d =>
    match Employee.ofDoc d with
    | some e => .employee 200 e
    | none => .serverError
  | none => .clientError 404 "Employee not found"

/-- Normalization step of `update_employee`: `joining_date` is converted with
`datetime.combine` only when the dict value is an actual date (an explicit
null fails the `isinstance` check and is left as null). -/
def EmployeeUpdate.normalize (u : EmployeeUpdate) : EmployeeUpdate :=
  { u with joining_date := u.joining_date.map (Option.map DateTime.normalizeToMidnight) }

/-- Mongo `$set` with the dict of explicitly-present update fields: each
present field overwrites the document field with its payload value — which is
null when the payload sent null. -/
def applySet (u : EmployeeUpdate) (d : Doc) : Doc :=
  { d with
    name := u.name.getD d.name
    department := u.department.getD d.department
    salary := u.salary.getD d.salary
    joining_date := u.joining_date.getD d.joining_date
    skills := u.skills.getD d.skills }

/-- Mongo `collection.update_one({"employee_id": eid}, {"$set": update_data})`. -/
def update_one (st : DB) (eid : String) (u : EmployeeUpdate) : DB :=
  ⟨mapFirst (fun d => d.employee_id == some eid) (applySet u) st.docs, st.nextOid⟩

/-- Handler of `PUT /employees/{employee_id}` — `update_employee` (main.py lines 68–96):
404 when absent; with an empty set of present fields, return the existing
record without writing; otherwise `$set` the present fields (normalizing a
non-null `joining_date`) and re-read. -/
def update_employee (st : DB) (employee_id : String)
    (employee_update : EmployeeUpdate) : DB × Response :=
  match find_one st employee_id with
  | none => (st, .clientError 404 "Employee not found")
  | some existing =>
    let update_data := employee_update.normalize
    if update_data.unset then
      match Employee.ofDoc existing with
      | some e => (st, .employee 200 e)
      | none => (st, .serverError)
    else
      let st1 := update_one st employee_id update_data
      match find_one st1 employee_id with
      | some d =>
        match Employee.ofDoc d with
        | some e => (st1, .employee 200 e)
        | none => (st1, .serverError)
      | none => (st1, .serverError)

/-- Handler of `DELETE /employees/{employee_id}` — `delete_employee` (main.py lines
98–103): delete, then 404 when `deleted_count` is 0, else 204. -/
def delete_employee (st : DB) (employee_id : String) : DB × Response :=
  let r := delete_one st employee_id
  if r.2 = 0 then (r.1, .clientError 404 "Employee not found")
  else (r.1, .noContent)

/-! ### Listing with sort (`list_employees_by_department`) -/

/-- BSON sort key order on a possibly absent `joining_date` (null/missing
sorts below every datetime). -/
def jdLE : Option DateTime → Option DateTime → Prop
  | none, _ => True
  | some _, none => False
  | some a, some b => DateTime.le a b

instance : DecidableRel jdLE := fun a b => by
  cases a <;> cases b <;> unfold jdLE <;> infer_instance

/-- Cursor `.sort("joining_date", -1)`: descending comparison of two documents. -/
def jdGE (a b : Doc) : Prop := jdLE b.joining_date a.joining_date

instance : DecidableRel jdGE := fun a b => by
  unfold jdGE; infer_instance

/-- The cursor order of `collection.find(query).sort("joining_date", -1)`:
the matching documents sorted by `joining_date` descending. -/
def findSorted (st : DB) (query : Doc → Bool) : List Doc :=
  (st.docs.filter query).insertionSort jdGE

/-- Validate a whole cursor worth of values the way the handlers iterate one:
the first failure aborts the request. -/
def traverseOpt (f : α → Option β) : List α → Option (List β)
  | [] => some []
  | a :: as =>
    match f a, traverseOpt f as with
    | some b, some bs => some (b :: bs)
    | _, _ => none

/-- Build the response list the way the handlers iterate a cursor: any
document failing `Employee` validation aborts the request with a server
error. -/
def employeesOf (ds : List Doc) : Option (List Employee) :=
  traverseOpt Employee.ofDoc ds

/-- Handler of `GET /employees/` — `list_employees_by_department` (main.py lines
107–122): `if department:` is false for both `None` and the empty string, so
only a non-empty `department` value restricts the query. -/
def list_employees_by_department (st : DB) (department : Option String) : Response :=
  let query : Doc → Bool :=
    match department with
    | some dep => if dep = "" then fun _ => true else fun d => d.department == some dep
    | none => fun _ => true
  match employeesOf (findSorted st query) with
  | some es => .employees es
  | none => .serverError

/-! ### Aggregation (`get_average_salary_by_department`) -/

/-- Round half to even, Mongo's `$round` tie-breaking rule. -/
def roundHalfEven (q : Rat) : Int :=
  if Int.fract q < 1/2 then ⌊q⌋
  else if 1/2 < Int.fract q then ⌊q⌋ + 1
  else if ⌊q⌋ % 2 = 0 then ⌊q⌋ else ⌊q⌋ + 1

/-- Stage `$round: [x, 2]`. -/
def round2 (q : Rat) : Rat := (roundHalfEven (q * 100) : Rat) / 100

/-- Stage `$avg: "$salary"` over one `$group` bucket: null and missing values are
ignored; an empty bucket of numeric values yields null. -/
def avgSalary (sals : List Rat) : Option Rat :=
  if sals = [] then none else some (sals.sum / sals.length)

/-- The distinct `$group` keys (department values, null for missing) of the
collection, in first-occurrence order; the pipeline sorts them afterwards. -/
def groupKeys (docs : List Doc) : List (Option String) :=
  (docs.map Doc.department).eraseDups

/-- One output document of the `$group`/`$project` stages for key `k`. -/
def aggRow (docs : List Doc) (k : Option String) : Option String × Option Rat :=
  (k, (avgSalary ((docs.filter (fun d => d.department == k)).filterMap Doc.salary)).map round2)

/-- Stage `$sort: {"department": 1}` key order: null below every string. -/
def deptLE : Option String × Option Rat → Option String × Option Rat → Prop
  | (none, _), _ => True
  | (some _, _), (none, _) => False
  | (some a, _), (some b, _) => a ≤ b

instance : DecidableRel deptLE := fun a b => by
  obtain ⟨a1, a2⟩ := a; obtain ⟨b1, b2⟩ := b
  cases a1 <;> cases b1 <;> unfold deptLE <;> infer_instance

/-- The full aggregation pipeline of main.py lines 128–141. -/
def avgPipeline (docs : List Doc) : List (Option String × Option Rat) :=
  ((groupKeys docs).map (aggRow docs)).insertionSort deptLE

/-- Validation `AverageSalaryByDepartment(**doc)`: it fails on a null
department (records with no department) or a null average. -/
def avgRowOf : Option String × Option Rat → Option AverageSalaryByDepartment
  | (some dep, some a) => some ⟨dep, a⟩
  | _ => none

/-- Handler of `GET /employees/avg-salary` — `get_average_salary_by_department`
(main.py lines 124–146). -/
def get_average_salary_by_department (st : DB) : Response :=
  match traverseOpt avgRowOf (avgPipeline st.docs) with
  | some rows => .avgRows rows
  | none => .serverError

/-- Handler of `GET /employees/search` — `search_employees_by_skill` (main.py lines
148–161): query `{"skills": skill}` keeps the documents whose `skills`
array contains an element equal to `skill`; no sort stage. -/
def search_employees_by_skill (st : DB) (skill : String) : Response :=
  match employeesOf (st.docs.filter (fun d =>
      match d.skills with
      | some l => l.contains skill
      | none => false)) with
  | some es => .employees es
  | none => .serverError

/-! ### Route resolution

Starlette (under FastAPI) resolves a request against the route table in the
order the routes were registered, taking the first pattern that matches the
path.  All GET paths of this app live under `/employees`; a request path is
either the bare collection path `/employees/` (no trailing segment) or
`/employees/<segment>` with one trailing segment. -/

/-- A GET request path: `none` is `/employees/`, `some s` is `/employees/s`. -/
def ReqPath := Option String

/-- A path pattern of one registered GET route. -/
inductive PathPattern where
  | collection
  | lit (s : String)
  | param
deriving DecidableEq, Repr

/-- Does a pattern match a request path? `{employee_id}` captures any single
trailing segment. -/
def PathPattern.matchesPath : PathPattern → Option String → Bool
  | .collection, none => true
  | .lit s, some t => s == t
  | .param, some _ => true
  | _, _ => false

/-- The handler a GET route dispatches to. -/
inductive GetHandler where
  | byId
  | listByDept
  | avgSalary
  | searchSkill
deriving DecidableEq, Repr

/-- The GET routes of the app in the order their decorators appear in
`src/main.py`: `/employees/{employee_id}` (line 55) is registered before
`/employees/` (line 107), `/employees/avg-salary` (line 124) and
`/employees/search` (line 148). -/
def getRoutes : List (PathPattern × GetHandler) :=
  [(.param, .byId),
   (.collection, .listByDept),
   (.lit "avg-salary", .avgSalary),
   (.lit "search", .searchSkill)]

/-- First-match route resolution over the registered GET routes. -/
def dispatchGet (p : Option String) : Option GetHandler :=
  (getRoutes.find? (fun r => r.1.matchesPath p)).map Prod.snd

/-- The query parameters a GET request may carry. -/
structure QueryParams where
  department : Option String
  skill : Option String
deriving DecidableEq, Repr

/-- A full GET request against the app: resolve the route, then run the
matched handler.  A missing required `skill` parameter is rejected by
FastAPI with a 422 before the handler runs; an unmatched path yields the
framework 404. -/
def handleGet (st : DB) (p : Option String) (q : QueryParams) : Response :=
  match dispatchGet p with
  | some .byId => get_employee_by_id st (p.getD "")
  | some .listByDept => list_employees_by_department st q.department
  | some .avgSalary => get_average_salary_by_department st
  | some .searchSkill =>
    match q.skill with
    | some s => search_employees_by_skill st s
    | none => .clientError 422 "Field required"
  | none => .clientError 404 "Not Found"

/-! ### Concrete collection states used in counterexamples and witnesses -/

def docGo : Doc :=
  ⟨0, some "E1", some "Alice", some "Eng", some 100, some ⟨1000, 0⟩, some ["Go"]⟩

def docGolang : Doc :=
  ⟨1, some "E2", some "Bob", some "Eng", some 200, some ⟨900, 0⟩, some ["Golang"]⟩

def dbGo : DB := ⟨[docGo], 1⟩

def dbGo2 : DB := ⟨[docGo, docGolang], 2⟩

def empGo : Employee := ⟨"0", "E1", "Alice", "Eng", 100, ⟨1000, 0⟩, ["Go"]⟩

def ec1 : EmployeeCreate := ⟨"E1", "Alice", "Eng", 100, ⟨1000, 5⟩, ["Go"]⟩

/-! ### Helper lemmas -/

lemma unset_normalize (u : EmployeeUpdate) : u.normalize.unset = u.unset := by
  unfold EmployeeUpdate.normalize EmployeeUpdate.unset
  cases u.joining_date <;> simp

lemma removeFirst_of_find?_eq_none (p : Doc → Bool) :
    ∀ l : List Doc, l.find? p = none → removeFirst p l = (l, 0) := by
  intro l h
  induction l with
  | nil => rfl
  | cons d ds ih =>
    by_cases hp : p d
    · rw [List.find?_cons_of_pos _ hp] at h
      exact absurd h (by simp)
    · rw [List.find?_cons_of_neg _ hp] at h
      simp only [removeFirst, hp, if_neg, Bool.false_eq_true, not_false_eq_true, ih h]

lemma find?_mapFirst (p : Doc → Bool) (f : Doc → Doc)
    (hp : ∀ x, p (f x) = p x) :
    ∀ (l : List Doc) (d : Doc), l.find? p = some d →
      (mapFirst p f l).find? p = some (f d) := by
  intro l
  induction l with
  | nil => intro d h; simp [List.find?] at h
  | cons a as ih =>
    intro d h
    by_cases hpa : p a
    · rw [List.find?_cons_of_pos _ hpa] at h
      injection h with h
      subst h
      unfold mapFirst
      rw [if_pos hpa, List.find?_cons_of_pos _ ((hp a).trans hpa)]
    · rw [List.find?_cons_of_neg _ hpa] at h
      have hpf : ¬ p (f a) = true := by rw [hp a]; exact hpa
      unfold mapFirst
      rw [if_neg hpa, List.find?_cons_of_neg _ hpa, ih d h]

lemma mem_mapFirst (p : Doc → Bool) (f : Doc → Doc) :
    ∀ (l : List Doc) (x : Doc), x ∈ mapFirst p f l → x ∈ l ∨ ∃ y ∈ l, x = f y := by
  intro l
  induction l with
  | nil => intro x h; simp [mapFirst] at h
  | cons a as ih =>
    intro x h
    by_cases hpa : p a
    · simp only [mapFirst, hpa, if_pos] at h
      rcases List.mem_cons.mp h with h | h
      · exact Or.inr ⟨a, List.mem_cons_self a as, h⟩
      · exact Or.inl (List.mem_cons_of_mem a h)
    · simp only [mapFirst, hpa, Bool.false_eq_true, if_neg, not_false_eq_true] at h
      rcases List.mem_cons.mp h with h | h
      · exact Or.inl (h ▸ List.mem_cons_self a as)
      · rcases ih x h with h | ⟨y, hy, hxy⟩
        · exact Or.inl (List.mem_cons_of_mem a h)
        · exact Or.inr ⟨y, List.mem_cons_of_mem a hy, hxy⟩

lemma mem_removeFirst (p : Doc → Bool) :
    ∀ (l : List Doc) (x : Doc), x ∈ (removeFirst p l).1 → x ∈ l := by
  intro l
  induction l with
  | nil => intro x h; simp [removeFirst] at h
  | cons a as ih =>
    intro x h
    by_cases hpa : p a
    · simp only [removeFirst, hpa, if_pos] at h
      exact List.mem_cons_of_mem a h
    · simp only [removeFirst, hpa, Bool.false_eq_true, if_neg, not_false_eq_true] at h
      rcases List.mem_cons.mp h with h | h
      · exact h ▸ List.mem_cons_self a as
      · exact List.mem_cons_of_mem a (ih x h)

lemma ofDoc_isSome_iff (d : Doc) : (Employee.ofDoc d).isSome ↔ d.full := by
  obtain ⟨oid, e, n, dep, s, j, sk⟩ := d
  unfold Employee.ofDoc Doc.full
  cases e <;> cases n <;> cases dep <;> cases s <;> cases j <;> cases sk <;> simp

lemma employeesOf_isSome :
    ∀ ds : List Doc, (∀ d ∈ ds, d.full) → ∃ es, employeesOf ds = some es := by
  intro ds
  induction ds with
  | nil => exact fun _ => ⟨[], rfl⟩
  | cons d ds ih =>
    intro h
    obtain ⟨e, he⟩ := Option.isSome_iff_exists.mp
      ((ofDoc_isSome_iff d).mpr (h d (List.mem_cons_self d ds)))
    obtain ⟨es, hes⟩ := ih (fun x hx => h x (List.mem_cons_of_mem d hx))
    exact ⟨e :: es, by simp only [employeesOf, traverseOpt] at hes ⊢; rw [he, hes]⟩

lemma DateTime.le_total (a b : DateTime) : a.le b ∨ b.le a := by
  unfold DateTime.le
  omega

lemma DateTime.le_trans {a b c : DateTime} (h1 : a.le b) (h2 : b.le c) : a.le c := by
  unfold DateTime.le at h1 h2 ⊢
  omega

lemma jdLE_total (a b : Option DateTime) : jdLE a b ∨ jdLE b a := by
  cases a with
  | none => exact Or.inl trivial
  | some x =>
    cases b with
    | none => exact Or.inr trivial
    | some y => exact DateTime.le_total x y

lemma jdLE_trans {a b c : Option DateTime} (h1 : jdLE a b) (h2 : jdLE b c) : jdLE a c := by
  cases a with
  | none => trivial
  | some x =>
    cases b with
    | none => exact absurd h1 (by simp [jdLE])
    | some y =>
      cases c with
      | none => exact absurd h2 (by simp [jdLE])
      | some z => exact DateTime.le_trans h1 h2

instance : IsTotal Doc jdGE :=
  ⟨fun a b => (jdLE_total b.joining_date a.joining_date).imp id id⟩

instance : IsTrans Doc jdGE :=
  ⟨fun _ _ _ hab hbc => jdLE_trans hbc hab⟩

/-- The update payload does not send any field as an explicit null (every
field is either absent or carries a value). -/
def EmployeeUpdate.noExplicitNull (u : EmployeeUpdate) : Prop :=
  u.name ≠ some none ∧ u.department ≠ some none ∧ u.salary ≠ some none ∧
    u.joining_date ≠ some none ∧ u.skills ≠ some none

instance (u : EmployeeUpdate) : Decidable u.noExplicitNull := by
  unfold EmployeeUpdate.noExplicitNull; infer_instance

lemma getD_isSome {α : Type} {o : Option (Option α)} {v : Option α}
    (ho : o ≠ some none) (hv : v.isSome) : (o.getD v).isSome := by
  cases o with
  | none => exact hv
  | some w =>
    cases w with
    | none => exact absurd rfl ho
    | some x => rfl

lemma applySet_full {u : EmployeeUpdate} {d : Doc}
    (hd : d.full) (hu : u.noExplicitNull) : (applySet u d).full := by
  obtain ⟨h1, h2, h3, h4, h5, h6⟩ := hd
  obtain ⟨n1, n2, n3, n4, n5⟩ := hu
  exact ⟨h1, getD_isSome n1 h2, getD_isSome n2 h3, getD_isSome n3 h4,
    getD_isSome n4 h5, getD_isSome n5 h6⟩

lemma noExplicitNull_normalize {u : EmployeeUpdate} (hu : u.noExplicitNull) :
    u.normalize.noExplicitNull := by
  obtain ⟨n1, n2, n3, n4, n5⟩ := hu
  refine ⟨n1, n2, n3, ?_, n5⟩
  unfold EmployeeUpdate.normalize
  cases hj : u.joining_date with
  | none => simp
  | some w =>
    cases w with
    | none => exact absurd hj n4
    | some x => simp

/-- The `Employee` response built for a freshly inserted creation input. -/
def createdEmployee (oid : Nat) (e : EmployeeCreate) : Employee :=
  ⟨toString oid, e.employee_id, e.name, e.department, e.salary,
    e.joining_date.normalizeToMidnight, e.skills⟩

/-- The document `create_employee` inserts for input `e` under ObjectId
`oid`. -/
def createdDoc (oid : Nat) (e : EmployeeCreate) : Doc :=
  ⟨oid, some e.employee_id, some e.name, some e.department, some e.salary,
    some e.joining_date.normalizeToMidnight, some e.skills⟩

lemma create_employee_fresh (st : DB) (e : EmployeeCreate)
    (hfresh : find_one st e.employee_id = none)
    (hoid : ∀ d ∈ st.docs, d.oid ≠ st.nextOid) :
    create_employee st e =
      (⟨st.docs ++ [createdDoc st.nextOid e], st.nextOid + 1⟩,
       .employee 201 (createdEmployee st.nextOid e)) := by
  unfold create_employee
  rw [hfresh]
  have hfind : find_one_by_oid
      ⟨st.docs ++ [createdDoc st.nextOid e], st.nextOid + 1⟩ st.nextOid
      = some (createdDoc st.nextOid e) := by
    unfold find_one_by_oid
    rw [List.find?_append]
    have h1 : st.docs.find? (fun d => d.oid == st.nextOid) = none := by
      rw [List.find?_eq_none]
      intro d hd
      simpa using hoid d hd
    rw [h1]
    simp [createdDoc]
  simp only [insert_one, createdDoc] at hfind ⊢
  rw [hfind]
  rfl

/-! ### Claims -/

/-- Claim C1 (code bug in route registration): the aggregation handler
`get_average_salary_by_department` computes exactly the rows the claim
describes, but the route `/employees/{employee_id}` (main.py line 55) is
registered before `/employees/avg-salary` (line 124), and Starlette resolves
first-match in registration order, so `GET /employees/avg-salary` is answered
by `get_employee_by_id` with `employee_id = "avg-salary"` — a 404 on any
collection without a record of that `employee_id`.  Evaluated here on a
collection holding one Eng record with salary 100: the claim demands
`200 + [(Eng, 100.00)]`, the code produces `404 Employee not found`, while
the shadowed handler would have produced the claimed rows. -/
theorem avg_salary_endpoint_shadowed :
    dispatchGet (some "avg-salary") = some GetHandler.byId ∧
    handleGet dbGo (some "avg-salary") ⟨none, none⟩
      = .clientError 404 "Employee not found" ∧
    get_average_salary_by_department dbGo = .avgRows [⟨"Eng", 100⟩] := by
  refine ⟨rfl, by decide, ?_⟩
  have h : round2 100 = 100 := by
    unfold round2 roundHalfEven; norm_num [Int.fract]
  simp [get_average_salary_by_department, avgPipeline, groupKeys, dbGo, docGo,
    List.eraseDups, aggRow, avgSalary, avgRowOf, List.insertionSort,
    List.orderedInsert, List.filterMap, List.filter, traverseOpt, h]

/-- Claim C2 (code bug in route registration): the search handler
`search_employees_by_skill` matches exactly the records whose `skills`
sequence contains the literal element (the record with only `"Golang"` is
excluded when searching `"Go"`), but `/employees/search` (main.py line 148)
is registered after `/employees/{employee_id}` (line 55), so
`GET /employees/search?skill=Go` is answered by `get_employee_by_id` with
`employee_id = "search"`, a 404 — the matching records are never returned. -/
theorem skill_search_endpoint_shadowed :
    dispatchGet (some "search") = some GetHandler.byId ∧
    handleGet dbGo2 (some "search") ⟨none, some "Go"⟩
      = .clientError 404 "Employee not found" ∧
    search_employees_by_skill dbGo2 "Go" = .employees [empGo] :=
  ⟨rfl, by decide, by decide⟩

/-- Claim C3: creating with an `employee_id` that already exists yields a
400 conflict and leaves the collection unchanged; creating with a fresh
`employee_id` succeeds with 201, and immediately creating again with the
same `employee_id` yields the 400 conflict with no further insert. -/
theorem create_duplicate_conflict (st : DB) (e : EmployeeCreate) :
    (∀ d, find_one st e.employee_id = some d →
      create_employee st e
        = (st, .clientError 400 "Employee with this employee_id already exists.")) ∧
    (find_one st e.employee_id = none →
      (∀ d ∈ st.docs, d.oid ≠ st.nextOid) →
      (create_employee st e).2 = .employee 201 (createdEmployee st.nextOid e) ∧
      create_employee (create_employee st e).1 e
        = ((create_employee st e).1,
           .clientError 400 "Employee with this employee_id already exists.")) := by
  constructor
  · intro d hd
    unfold create_employee
    rw [hd]
  · intro hfresh hoid
    rw [create_employee_fresh st e hfresh hoid]
    refine ⟨rfl, ?_⟩
    unfold create_employee
    have h1 : find_one ⟨st.docs ++ [createdDoc st.nextOid e], st.nextOid + 1⟩
        e.employee_id = some (createdDoc st.nextOid e) := by
      unfold find_one at hfresh ⊢
      rw [List.find?_append, hfresh]
      simp [createdDoc]
    rw [h1]

/-- Witness for C3 at concrete states: a duplicate create against `dbGo`
conflicts without touching the state, and the create-twice sequence from the
empty collection gives 201 then 400. -/
theorem create_duplicate_conflict_witness :
    find_one dbGo ec1.employee_id = some docGo ∧
    find_one ⟨[], 0⟩ ec1.employee_id = none ∧
    (∀ d ∈ (⟨[], 0⟩ : DB).docs, d.oid ≠ (⟨[], 0⟩ : DB).nextOid) ∧
    create_employee dbGo ec1
      = (dbGo, .clientError 400 "Employee with this employee_id already exists.") ∧
    (create_employee (⟨[], 0⟩ : DB) ec1).2 = .employee 201 (createdEmployee 0 ec1) ∧
    create_employee (create_employee (⟨[], 0⟩ : DB) ec1).1 ec1
      = ((create_employee (⟨[], 0⟩ : DB) ec1).1,
         .clientError 400 "Employee with this employee_id already exists.") :=
  ⟨by decide, by decide, by decide,
   (create_duplicate_conflict dbGo ec1).1 docGo (by decide),
   ((create_duplicate_conflict ⟨[], 0⟩ ec1).2 (by decide) (by decide)).1,
   ((create_duplicate_conflict ⟨[], 0⟩ ec1).2 (by decide) (by decide)).2⟩

/-- Claim C4: a create with a fresh `employee_id` succeeds with 201, and a
subsequent get-by-id returns exactly the creation input plus the generated
`id` (the stringified ObjectId) and with `joining_date` normalized to
midnight. -/
theorem create_then_get_roundtrip (st : DB) (e : EmployeeCreate)
    (hfresh : find_one st e.employee_id = none)
    (hoid : ∀ d ∈ st.docs, d.oid ≠ st.nextOid) :
    (create_employee st e).2 = .employee 201 (createdEmployee st.nextOid e) ∧
    get_employee_by_id (create_employee st e).1 e.employee_id
      = .employee 200 (createdEmployee st.nextOid e) := by
  rw [create_employee_fresh st e hfresh hoid]
  refine ⟨rfl, ?_⟩
  unfold get_employee_by_id
  have h1 : find_one ⟨st.docs ++ [createdDoc st.nextOid e], st.nextOid + 1⟩
      e.employee_id = some (createdDoc st.nextOid e) := by
    unfold find_one at hfresh ⊢
    rw [List.find?_append, hfresh]
    simp [createdDoc]
  rw [h1]
  rfl

/-- Witness for C4: the round trip evaluated from the empty collection with
`nextOid = 5`; the input `ec1` carries a non-midnight time component, and the
returned record is the input with `id = "5"` and the time zeroed. -/
theorem create_then_get_roundtrip_witness :
    find_one ⟨[], 5⟩ ec1.employee_id = none ∧
    (∀ d ∈ (⟨[], 5⟩ : DB).docs, d.oid ≠ (⟨[], 5⟩ : DB).nextOid) ∧
    ((create_employee ⟨[], 5⟩ ec1).2 = .employee 201 (createdEmployee 5 ec1) ∧
     get_employee_by_id (create_employee ⟨[], 5⟩ ec1).1 ec1.employee_id
       = .employee 200 (createdEmployee 5 ec1)) :=
  ⟨by decide, by decide, create_then_get_roundtrip ⟨[], 5⟩ ec1 (by decide) (by decide)⟩

/-- The state after a create is either untouched (conflict) or the old
documents plus the inserted one, whatever the re-read produced. -/
lemma create_employee_state (st : DB) (e : EmployeeCreate) :
    (create_employee st e).1 = st ∨
    (create_employee st e).1
      = ⟨st.docs ++ [createdDoc st.nextOid e], st.nextOid + 1⟩ := by
  unfold create_employee
  split
  · exact Or.inl rfl
  · right
    dsimp only
    split
    · split <;> rfl
    · rfl

/-- The state after an update is either untouched (404 or empty payload) or
the result of the one `$set`. -/
lemma update_employee_state (st : DB) (eid : String) (u : EmployeeUpdate) :
    (update_employee st eid u).1 = st ∨
    (update_employee st eid u).1 = update_one st eid u.normalize := by
  unfold update_employee
  split
  · exact Or.inl rfl
  · dsimp only
    split
    · left
      split <;> rfl
    · right
      split
      · split <;> rfl
      · rfl

/-- The state after a delete is the old documents with the first match
removed (which is the old list when nothing matched). -/
lemma delete_employee_state (st : DB) (eid : String) :
    (delete_employee st eid).1
      = ⟨(removeFirst (fun d => d.employee_id == some eid) st.docs).1,
         st.nextOid⟩ := by
  unfold delete_employee delete_one
  dsimp only
  by_cases h : (removeFirst (fun d => d.employee_id == some eid) st.docs).2 = 0
  · rw [if_pos h]
  · rw [if_neg h]

def nullNameUpdate : EmployeeUpdate := ⟨some none, none, none, none, none⟩

/-- Claim C5 counterexample: starting from a collection whose single record
is fully populated, an update request that explicitly sends `name: null` is
kept by `exclude_unset` and written through `$set`, leaving the persisted
record with a null `name` (the handler then even fails response validation).
This refutes the claim that no update — including one sending a field as
null — can leave a persisted record with a missing or null field. -/
theorem explicit_null_update_breaks_full_record :
    (∀ d ∈ dbGo.docs, d.full) ∧
    (update_employee dbGo "E1" nullNameUpdate).2 = .serverError ∧
    ¬ (∀ d ∈ (update_employee dbGo "E1" nullNameUpdate).1.docs, d.full) := by
  decide

/-- Claim C5 amended: creation always inserts fully populated records, and
updates preserve the all-fields-populated invariant provided no field is
explicitly sent as null (deletes preserve it unconditionally); an explicit
null is written into the record, so the unrestricted claim fails. -/
theorem full_record_invariant_amended (st : DB)
    (hfull : ∀ d ∈ st.docs, d.full) :
    (∀ e : EmployeeCreate, ∀ d ∈ (create_employee st e).1.docs, d.full) ∧
    (∀ (eid : String) (u : EmployeeUpdate), u.noExplicitNull →
      ∀ d ∈ (update_employee st eid u).1.docs, d.full) ∧
    (∀ eid : String, ∀ d ∈ (delete_employee st eid).1.docs, d.full) := by
  refine ⟨?_, ?_, ?_⟩
  · intro e d hd
    rcases create_employee_state st e with h | h <;> rw [h] at hd
    · exact hfull d hd
    · rcases List.mem_append.mp hd with h2 | h2
      · exact hfull d h2
      · obtain rfl : d = createdDoc st.nextOid e := List.mem_singleton.mp h2
        exact ⟨rfl, rfl, rfl, rfl, rfl, rfl⟩
  · intro eid u hu d hd
    rcases update_employee_state st eid u with h | h <;> rw [h] at hd
    · exact hfull d hd
    · rcases mem_mapFirst _ _ st.docs d hd with h2 | ⟨y, hy, rfl⟩
      · exact hfull d h2
      · exact applySet_full (hfull y hy) (noExplicitNull_normalize hu)
  · intro eid d hd
    rw [delete_employee_state st eid] at hd
    exact hfull d (mem_removeFirst _ st.docs d hd)

def upd0 : EmployeeUpdate := ⟨some (some "Carol"), none, none, none, none⟩

/-- Witness for the amended C5: the fully populated one-record collection
stays fully populated under an update that sets `name` to a value. -/
theorem full_record_invariant_amended_witness :
    (∀ d ∈ dbGo.docs, d.full) ∧
    upd0.noExplicitNull ∧
    (∀ d ∈ (update_employee dbGo "E1" upd0).1.docs, d.full) :=
  ⟨by decide, by decide,
   (full_record_invariant_amended dbGo (by decide)).2.1 "E1" upd0 (by decide)⟩

def rawEmptyName : RawCreate :=
  ⟨some "E9", some "", some "", some 50, some ⟨500, 0⟩, some []⟩

def ecEmptyName : EmployeeCreate := ⟨"E9", "", "", 50, ⟨500, 0⟩, []⟩

/-- Claim C6 counterexample: `EmployeeCreate` declares `name` and
`department` as plain required strings with no minimum length, so a payload
with both empty passes validation, reaches the database and is inserted with
a 201 — refuting the claim that such inputs are rejected as a client error
before any database access. -/
theorem empty_name_passes_validation :
    validateCreate rawEmptyName = some ecEmptyName ∧
    create_employee ⟨[], 0⟩ ecEmptyName
      = (⟨[⟨0, some "E9", some "", some "", some 50, some ⟨500, 0⟩, some []⟩], 1⟩,
         .employee 201 ⟨"0", "E9", "", "", 50, ⟨500, 0⟩, []⟩) := by
  decide

/-- Claim C6 amended: creation-input validation checks presence and type
only; every payload whose six fields are present and well typed — whatever
the string contents, empty included — validates to the corresponding
`EmployeeCreate`, and a create from the empty collection then succeeds with
201 rather than being rejected. -/
theorem create_validation_presence_type_only (eid n dep : String) (s : Rat)
    (j : DateTime) (sk : List String) :
    validateCreate ⟨some eid, some n, some dep, some s, some j, some sk⟩
      = some ⟨eid, n, dep, s, j, sk⟩ ∧
    (create_employee ⟨[], 0⟩ ⟨eid, n, dep, s, j, sk⟩).2
      = .employee 201 ⟨"0", eid, n, dep, s, j.normalizeToMidnight, sk⟩ := by
  refine ⟨rfl, ?_⟩
  unfold create_employee find_one insert_one find_one_by_oid Employee.ofDoc
  simp
  rfl

/-- Claim C7 counterexample: `if department:` in
`list_employees_by_department` is falsy for the empty string, so a request
with `department=""` applies no filter at all: on a collection whose only
record has department `"Eng"`, the subset with department `""` is empty, yet
the listing returns that record — refuting the claim for `D = ""`. -/
theorem empty_department_filter_ignored :
    dbGo.docs.filter (fun d => d.department == some "") = [] ∧
    list_employees_by_department dbGo (some "") = .employees [empGo] := by
  decide

/-- Claim C7 amended: over a fully populated collection, listing with a
non-empty department returns exactly the records of that department as a
permutation sorted by `joining_date` in descending (non-increasing) order;
listing with no `department` — and likewise with the empty-string
`department`, which the handler treats as unset — returns all records in the
same order. -/
theorem list_employees_filter_sort_amended (st : DB) (dep : String)
    (hfull : ∀ d ∈ st.docs, d.full) (hdep : dep ≠ "") :
    (∃ ds es, ds.Perm (st.docs.filter (fun d => d.department == some dep)) ∧
      List.Sorted jdGE ds ∧ employeesOf ds = some es ∧
      list_employees_by_department st (some dep) = .employees es) ∧
    (∃ ds es, ds.Perm st.docs ∧ List.Sorted jdGE ds ∧ employeesOf ds = some es ∧
      list_employees_by_department st none = .employees es ∧
      list_employees_by_department st (some "") = .employees es) := by
  constructor
  · have hperm := List.perm_insertionSort jdGE
      (st.docs.filter (fun d => d.department == some dep))
    have hsorted := List.sorted_insertionSort jdGE
      (st.docs.filter (fun d => d.department == some dep))
    have hmem : ∀ d ∈ findSorted st (fun d => d.department == some dep), d.full :=
      fun d hd => hfull d (List.mem_of_mem_filter (hperm.mem_iff.mp hd))
    obtain ⟨es, hes⟩ := employeesOf_isSome _ hmem
    refine ⟨findSorted st (fun d => d.department == some dep), es,
      hperm, hsorted, hes, ?_⟩
    unfold list_employees_by_department
    dsimp only
    rw [if_neg hdep, hes]
  · have hfe : st.docs.filter (fun _ => true) = st.docs := by
      simp
    have hperm0 := List.perm_insertionSort jdGE (st.docs.filter (fun _ => true))
    have hperm : (findSorted st (fun _ => true)).Perm st.docs := hfe ▸ hperm0
    have hsorted := List.sorted_insertionSort jdGE (st.docs.filter (fun _ => true))
    have hmem : ∀ d ∈ findSorted st (fun _ => true), d.full :=
      fun d hd => hfull d (hperm.mem_iff.mp hd)
    obtain ⟨es, hes⟩ := employeesOf_isSome _ hmem
    refine ⟨findSorted st (fun _ => true), es, hperm, hsorted, hes, ?_, ?_⟩
    · unfold list_employees_by_department
      dsimp only
      rw [hes]
    · unfold list_employees_by_department
      dsimp only
      rw [if_pos rfl, hes]

/-- Witness for the amended C7 on the two-record collection `dbGo2` with
department `"Eng"`. -/
theorem list_employees_filter_sort_amended_witness :
    (∀ d ∈ dbGo2.docs, d.full) ∧ "Eng" ≠ "" ∧
    ((∃ ds es, ds.Perm (dbGo2.docs.filter (fun d => d.department == some "Eng")) ∧
      List.Sorted jdGE ds ∧ employeesOf ds = some es ∧
      list_employees_by_department dbGo2 (some "Eng") = .employees es) ∧
    (∃ ds es, ds.Perm dbGo2.docs ∧ List.Sorted jdGE ds ∧ employeesOf ds = some es ∧
      list_employees_by_department dbGo2 none = .employees es ∧
      list_employees_by_department dbGo2 (some "") = .employees es)) :=
  ⟨by decide, by decide,
   list_employees_filter_sort_amended dbGo2 "Eng" (by decide) (by decide)⟩

/-- Claim C8: getting, updating or deleting a non-existent `employee_id`
returns 404 in all three cases, and none of the three changes the
collection. -/
theorem missing_employee_not_found (st : DB) (eid : String) (u : EmployeeUpdate)
    (h : find_one st eid = none) :
    get_employee_by_id st eid = .clientError 404 "Employee not found" ∧
    update_employee st eid u = (st, .clientError 404 "Employee not found") ∧
    delete_employee st eid = (st, .clientError 404 "Employee not found") := by
  have h0 : st.docs.find? (fun d => d.employee_id == some eid) = none := h
  refine ⟨?_, ?_, ?_⟩
  · unfold get_employee_by_id
    rw [h]
  · unfold update_employee
    rw [h]
  · unfold delete_employee delete_one
    dsimp only
    rw [removeFirst_of_find?_eq_none _ st.docs h0]
    rfl

/-- Witness for C8: the three 404s against `dbGo` for the absent id
`"EX"`. -/
theorem missing_employee_not_found_witness :
    find_one dbGo "EX" = none ∧
    (get_employee_by_id dbGo "EX" = .clientError 404 "Employee not found" ∧
     update_employee dbGo "EX" upd0 = (dbGo, .clientError 404 "Employee not found") ∧
     delete_employee dbGo "EX" = (dbGo, .clientError 404 "Employee not found")) :=
  ⟨by decide, missing_employee_not_found dbGo "EX" upd0 (by decide)⟩

/-- Claim C9: an update whose payload sets no fields returns 200 with the
existing record and performs no write — the state component of the result is
the input state itself. -/
theorem empty_update_no_write (st : DB) (eid : String) (u : EmployeeUpdate)
    (d : Doc) (e : Employee) (hu : u.unset = true)
    (hf : find_one st eid = some d) (he : Employee.ofDoc d = some e) :
    update_employee st eid u = (st, .employee 200 e) := by
  unfold update_employee
  rw [hf]
  dsimp only
  rw [if_pos ((unset_normalize u).trans hu), he]

def emptyUpdate : EmployeeUpdate := ⟨none, none, none, none, none⟩

/-- Witness for C9: the empty-payload update of record `E1` in `dbGo`. -/
theorem empty_update_no_write_witness :
    emptyUpdate.unset = true ∧
    find_one dbGo "E1" = some docGo ∧
    Employee.ofDoc docGo = some empGo ∧
    update_employee dbGo "E1" emptyUpdate = (dbGo, .employee 200 empGo) :=
  ⟨by decide, by decide, by decide,
   empty_update_no_write dbGo "E1" emptyUpdate docGo empGo
     (by decide) (by decide) (by decide)⟩

/-- An update payload carrying only `{salary: x}`. -/
def salaryOnly (x : Rat) : EmployeeUpdate := ⟨none, none, some (some x), none, none⟩

lemma ofDoc_set_salary {d : Doc} {e : Employee} (x : Rat)
    (he : Employee.ofDoc d = some e) :
    Employee.ofDoc { d with salary := some x } = some { e with salary := x } := by
  obtain ⟨oid, e1, n1, dep1, s1, j1, sk1⟩ := d
  cases e1 <;> cases n1 <;> cases dep1 <;> cases s1 <;> cases j1 <;> cases sk1 <;>
    simp_all [Employee.ofDoc]
  subst he
  exact ⟨rfl, rfl, rfl, rfl, rfl, rfl⟩

/-- Claim C10: an update whose payload carries only `{salary: x}` against an
existing record yields a 200 response that is the prior record with just its
salary replaced, and the persisted document after the write is the prior
document with just its salary field replaced (all other fields, `id`
included, are untouched). -/
theorem salary_only_update_frame (st : DB) (eid : String) (x : Rat)
    (d : Doc) (e : Employee)
    (hf : find_one st eid = some d) (he : Employee.ofDoc d = some e) :
    update_employee st eid (salaryOnly x)
      = (update_one st eid (salaryOnly x), .employee 200 { e with salary := x }) ∧
    find_one (update_one st eid (salaryOnly x)) eid
      = some { d with salary := some x } := by
  have hnorm : (salaryOnly x).normalize = salaryOnly x := rfl
  have happ : applySet (salaryOnly x) d = { d with salary := some x } := rfl
  have hkey : find_one (update_one st eid (salaryOnly x)) eid
      = some { d with salary := some x } := by
    have h1 := find?_mapFirst (fun y => y.employee_id == some eid)
      (applySet (salaryOnly x)) (fun y => rfl) st.docs d hf
    rw [happ] at h1
    exact h1
  refine ⟨?_, hkey⟩
  unfold update_employee
  rw [hf]
  dsimp only
  rw [hnorm]
  rw [if_neg (by exact fun hc => Bool.noConfusion hc)]
  rw [hkey]
  dsimp only
  rw [ofDoc_set_salary x he]

/-- Witness for C10: setting only the salary of `E1` in `dbGo` to 77. -/
theorem salary_only_update_frame_witness :
    find_one dbGo "E1" = some docGo ∧
    Employee.ofDoc docGo = some empGo ∧
    (update_employee dbGo "E1" (salaryOnly 77)
      = (update_one dbGo "E1" (salaryOnly 77),
         .employee 200 { empGo with salary := 77 }) ∧
     find_one (update_one dbGo "E1" (salaryOnly 77)) "E1"
      = some { docGo with salary := some 77 }) :=
  ⟨by decide, by decide,
   salary_only_update_frame dbGo "E1" 77 docGo empGo (by decide) (by decide)⟩
